import Mathlib

/-!
Shallow embedding of the gocoreutils repository (cmd/ls/main.go and
cmd/whoami/main.go) together with theorems checking its natural-language
specification.

Modelling conventions:
* Machine integers are modelled as Nat / Int.  The Go `uint` values involved
  (block sizes, block counts) only shrink under the divisions performed, so
  no overflow wrapping arises in the modelled operations.
* Fallible Go calls (os.Stat, os.ReadDir, dirEntry.Info, user.LookupId,
  user.LookupGroupId, user.Current, Flush) are modelled by an explicit
  environment of pure functions returning Except / Option values.
* Go runtime panics that the code can actually trigger (method call through a
  nil embedded fs.FileInfo interface, integer division by zero) are modelled
  by the GoPanic error type; a function that can panic returns
  Except GoPanic.
* The unbounded recursion of fetchEntryInfo over the (flat, name-keyed)
  directory environment is made terminating with an explicit fuel parameter;
  exhausting fuel is reported as GoPanic.stackOverflow, mirroring what the Go
  program does on a filesystem graph with unbounded descent.  Fuel is also
  consumed while walking along a list of siblings, so any theorem about a
  concrete tree simply takes a sufficiently large fuel value.
* Output is modelled as the list of lines handed to the tabwriter (the
  tabwriter only re-pads columns inside a line; it preserves lines, their
  order and the names in them, which is all the claims are about).
* Mode().String() and the formatted ModTime() are carried as uninterpreted
  string fields of FileInfo; no claim is about their contents.
-/

/-- A Go error value.  os.Stat and os.ReadDir produce fs.PathError values
(recognised by formatError); the other errors are plain messages. -/
structure GoErr where
  isPathErr : Bool
  path : String
  msg : String
deriving Repr, DecidableEq

/-- The runtime panics the modelled code can raise. -/
inductive GoPanic where
  | nilDeref
  | divideByZero
  | stackOverflow
deriving Repr, DecidableEq

/-- The fields of syscall.Stat_t that fetchEntryInfo reads.  Uid and Gid are
uint32 in Go, hence Nat here. -/
structure SysStat where
  nlink : Nat
  blocks : Nat
  uid : Nat
  gid : Nat
deriving Repr, DecidableEq

/-- An fs.FileInfo value.  sys = none models a Sys() value that is not a
(*syscall.Stat_t); modeStr and modTimeStr are the rendered permission string
and formatted modification time. -/
structure FileInfo where
  isDir : Bool
  size : Int
  modeStr : String
  modTimeStr : String
  sys : Option SysStat
deriving Repr, DecidableEq

/-- The scalar fields of the entryInfo struct of cmd/ls/main.go.
fileInfo = none models a nil embedded fs.FileInfo interface (which Go
produces when dirEntry.Info() fails and newEntryInfo is still called). -/
structure EntryData where
  path : String
  fileInfo : Option FileInfo
  directRequest : Bool
  numLinks : Nat
  numBlocks : Nat
  uID : Int
  gID : Int
  user : Option String
  group : Option String
deriving Repr, DecidableEq

/-- The entryInfo struct: scalar fields plus the subEntries slice. -/
inductive EntryInfo where
  | mk (data : EntryData) (subEntries : List EntryInfo)

/-- Accessor for the scalar fields of an entryInfo. -/
def EntryInfo.data : EntryInfo → EntryData
  | .mk d _ => d

/-- Accessor for the subEntries slice of an entryInfo. -/
def EntryInfo.subEntries : EntryInfo → List EntryInfo
  | .mk _ s => s

/-- The newEntryInfo constructor: uID and gID start at -1 (unknown), every
other field at its Go zero value. -/
def newEntryInfo (path : String) (fsInfo : Option FileInfo) : EntryInfo :=
  .mk
    { path := path
      fileInfo := fsInfo
      directRequest := false
      numLinks := 0
      numBlocks := 0
      uID := -1
      gID := -1
      user := none
      group := none }
    []

/-- A root entry as built in main for a command-line path whose os.Stat
succeeded: newEntryInfo with directRequest set. -/
def directRootEntry (path : String) (fsInfo : FileInfo) : EntryInfo :=
  match newEntryInfo path (some fsInfo) with
  | .mk d subs => .mk { d with directRequest := true } subs

/-- The SafeName method: quote the path when it contains a space. -/
def safeName (e : EntryInfo) : String :=
  if e.data.path.data.any (fun c => c = Char.ofNat 32) then
    "\x27" ++ e.data.path ++ "\x27"
  else
    e.data.path

/-- A call of a promoted fs.FileInfo method (IsDir here): panics with a nil
pointer dereference when the embedded interface is nil. -/
def entryIsDir (e : EntryInfo) : Except GoPanic Bool :=
  match e.data.fileInfo with
  | none => .error .nilDeref
  | some fi => .ok fi.isDir

/-- The blocksForSize method.  factor := blockSize / 512 is computed without
any guard; the division by factor panics when factor = 0. -/
def blocksForSize (e : EntryInfo) (blockSize : Nat) : Except GoPanic Nat :=
  let factor := blockSize / 512
  match entryIsDir e with
  | .error p => .error p
  | .ok true =>
    let total := (e.subEntries.map (fun s => s.data.numBlocks)).sum
    if factor = 0 then .error .divideByZero else .ok (total / factor)
  | .ok false =>
    if factor = 0 then .error .divideByZero else .ok (e.data.numBlocks / factor)

/-- One entry of an os.ReadDir result: a name and the result of the
dirEntry.Info() call that fetchEntryInfo performs on it. -/
structure DirEntry where
  name : String
  info : Except GoErr FileInfo

/-- The operating-system environment of the ls command.  readDir returns the
entries read plus an optional error (Go os.ReadDir can return both). -/
structure Env where
  stat : String → Except GoErr FileInfo
  readDir : String → List DirEntry × Option GoErr
  lookupUser : Int → Except GoErr String
  lookupGroup : Int → Except GoErr String
  flushErr : Option GoErr

/-- The block of fetchEntryInfo that copies Nlink, Blocks, Uid and Gid out of
a successful Sys() type assertion; on a failed assertion nothing changes. -/
def applySysStat (d : EntryData) (fi : FileInfo) : EntryData :=
  match fi.sys with
  | some s =>
    { d with
      numLinks := s.nlink
      numBlocks := s.blocks
      uID := Int.ofNat s.uid
      gID := Int.ofNat s.gid }
  | none => d

/-- The uid / gid lookup block of fetchEntryInfo: when the id is not -1 the
lookup runs, its error (if any) is collected, and the user / group field is
set to the returned pointer, which is nil exactly on failure. -/
def applyIdLookups (env : Env) (d : EntryData) : EntryData × List GoErr :=
  let userStep :=
    if d.uID ≠ -1 then
      match env.lookupUser d.uID with
      | .ok u => (some u, ([] : List GoErr))
      | .error e => (none, [e])
    else (d.user, [])
  let groupStep :=
    if d.gID ≠ -1 then
      match env.lookupGroup d.gID with
      | .ok g => (some g, ([] : List GoErr))
      | .error e => (none, [e])
    else (d.group, [])
  ({ d with user := userStep.1, group := groupStep.1 },
    userStep.2 ++ groupStep.2)

/-- The child-construction loop of fetchEntryInfo: one newEntryInfo per
directory entry, collecting the dirEntry.Info() errors in loop order.  A
child whose Info() failed is still constructed, with a nil fileInfo. -/
def initChildren : List DirEntry → List EntryInfo × List GoErr
  | [] => ([], [])
  | d :: rest =>
    let tail := initChildren rest
    match d.info with
    | .ok fi => (newEntryInfo d.name (some fi) :: tail.1, tail.2)
    | .error e => (newEntryInfo d.name none :: tail.1, e :: tail.2)

/-- The body of fetchEntryInfo: walks the entry list, filling in sys fields,
id lookups and (for directories) freshly read children, while accumulating
every error in the local errs slice, which it returns.  The recursive call in
the source is to fetchEntryInfo itself, whose returned error slice is nil, so
nothing from the sub-level is appended at the call site. -/
def fetchLoop (env : Env) (recurse : Bool) :
    Nat → List EntryInfo → Except GoPanic (List EntryInfo × List GoErr)
  | _, [] => .ok ([], [])
  | 0, _ :: _ => .error .stackOverflow
  | fuel + 1, e :: rest =>
    match e.data.fileInfo with
    | none => .error .nilDeref
    | some fi =>
      let d1 := applySysStat e.data fi
      let stepLookups := applyIdLookups env d1
      let d2 := stepLookups.1
      let lookupErrs := stepLookups.2
      if fi.isDir then
        let readDirResult := env.readDir d2.path
        let readDirErrs :=
          match readDirResult.2 with
          | some er => [er]
          | none => ([] : List GoErr)
        let childInit := initChildren readDirResult.1
        match fetchLoop env recurse fuel childInit.1 with
        | .error p => .error p
        | .ok subResult =>
          -- the recursive fetchEntryInfo call returns nil, so appending its
          -- result to errs adds nothing; subResult.2 is the sub-level errs
          -- slice that the source discards with its final return
          match fetchLoop env recurse fuel rest with
          | .error p => .error p
          | .ok restResult =>
            .ok (EntryInfo.mk d2 subResult.1 :: restResult.1,
              lookupErrs ++ readDirErrs ++ childInit.2 ++ restResult.2)
      else
        match fetchLoop env recurse fuel rest with
        | .error p => .error p
        | .ok restResult =>
          .ok (EntryInfo.mk d2 e.subEntries :: restResult.1,
            lookupErrs ++ restResult.2)

/-- fetchEntryInfo as callers see it: it runs the accumulating walk and then
executes the final statement of the source, which is `return nil`, dropping
the accumulated errs slice. -/
def fetchEntryInfo (env : Env) (entries : List EntryInfo) (recurse : Bool)
    (fuel : Nat) : Except GoPanic (List EntryInfo × List GoErr) :=
  match fetchLoop env recurse fuel entries with
  | .error p => .error p
  | .ok result => .ok (result.1, [])

/-- Go compares strings byte-wise; on UTF-8 data that coincides with
codepoint-wise comparison, modelled here on the character lists. -/
def charLtB (a b : Char) : Bool := a < b

/-- Lexicographic strict order on character lists, as Go string comparison. -/
def listCharLt : List Char → List Char → Bool
  | [], [] => false
  | [], _ :: _ => true
  | _ :: _, [] => false
  | a :: as, b :: bs =>
    if charLtB a b then true
    else if charLtB b a then false
    else listCharLt as bs

/-- Go string less-than. -/
def goLt (a b : String) : Bool := listCharLt a.data b.data

/-- The non-strict order sort.Strings sorts by (not (b < a)). -/
def goLeP (a b : String) : Prop := goLt b a = false

instance : DecidableRel goLeP :=
  fun a b => inferInstanceAs (Decidable (goLt b a = false))

/-- The character list of strings.ToLower applied to a string (ASCII case
mapping, which agrees with Go on the inputs the claims mention). -/
def lowerData (s : String) : List Char := s.data.map Char.toLower

/-- The less function of the sort.Slice calls in printEntries:
strings.ToLower(x) < strings.ToLower(y). -/
def ciLt (a b : String) : Bool := listCharLt (lowerData a) (lowerData b)

/-- The non-strict order induced by the case-insensitive less function. -/
def ciLeP (a b : String) : Prop := ciLt b a = false

instance : DecidableRel ciLeP :=
  fun a b => inferInstanceAs (Decidable (ciLt b a = false))

/-- The case-insensitive order on entries, comparing their path names, as in
the long-format sort.Slice call of printEntries. -/
def ciEntryLeP (a b : EntryInfo) : Prop := ciLt b.data.path a.data.path = false

instance : DecidableRel ciEntryLeP :=
  fun a b => inferInstanceAs (Decidable (ciLt b.data.path a.data.path = false))

/-- The sort.Strings call on the direct-request file names (byte-wise,
case-sensitive).  Modelled with a stable sort; Go fixes no tie order and the
relation is total, so any sort agreeing with the order is faithful. -/
def sortStrings (xs : List String) : List String :=
  List.insertionSort goLeP xs

/-- The case-insensitive sort.Slice call on the short-format sub-file
names. -/
def sortCI (xs : List String) : List String :=
  List.insertionSort ciLeP xs

/-- The case-insensitive sort.Slice call on subEntries in long format. -/
def sortEntriesCI (xs : List EntryInfo) : List EntryInfo :=
  List.insertionSort ciEntryLeP xs

/-- ls and whoami configuration flags (the flag package fills these; the
uint --block-size flag accepts any value, 0 included). -/
structure Config where
  blockSize : Nat
  formatLongList : Bool

/-- The owner-name column of printLongEntryInfo: the Username of the looked
up user, or the literal Unknown when the pointer is nil. -/
def ownerName (e : EntryInfo) : String :=
  match e.data.user with
  | some u => u
  | none => "Unknown"

/-- The group-name column of printLongEntryInfo: the Name of the looked up
group, or the literal Unknown when the pointer is nil. -/
def groupName (e : EntryInfo) : String :=
  match e.data.group with
  | some g => g
  | none => "Unknown"

/-- printLongEntryInfo: one tab-separated long-format row.  Calling Mode(),
Size() or ModTime() through a nil embedded interface panics. -/
def printLongEntryInfo (e : EntryInfo) : Except GoPanic String :=
  match e.data.fileInfo with
  | none => .error .nilDeref
  | some fi =>
    .ok (fi.modeStr ++ "\t" ++ toString e.data.numLinks ++ "\t" ++
      ownerName e ++ "\t" ++ groupName e ++ "\t" ++ toString fi.size ++
      "\t" ++ fi.modTimeStr ++ "\t" ++ safeName e)

/-- The classification loop at the top of printEntries: direct-request
non-directories (entries and their SafeNames) versus everything else, in
input order.  The IsDir() call panics on a nil embedded interface. -/
def classifyEntries :
    List EntryInfo → Except GoPanic (List EntryInfo × List String × List EntryInfo)
  | [] => .ok ([], [], [])
  | e :: rest =>
    match entryIsDir e with
    | .error p => .error p
    | .ok isDir =>
      match classifyEntries rest with
      | .error p => .error p
      | .ok tail =>
        if e.data.directRequest && !isDir then
          .ok (e :: tail.1, safeName e :: tail.2.1, tail.2.2)
        else
          .ok (tail.1, tail.2.1, e :: tail.2.2)

/-- The join of a short-format name list as written by strings.Join with a
triple tab separator. -/
def joinNames (names : List String) : String :=
  String.intercalate "\t\t\t" names

/-- The direct-request part of printEntries: in short format one joined,
sort.Strings-sorted line (only when there are names); in long format one row
per direct file, unsorted. -/
def directPartLines (cfg : Config) (directFileEntries : List EntryInfo)
    (directFileNames : List String) : Except GoPanic (List String) :=
  if !cfg.formatLongList && directFileNames.length > 0 then
    .ok [joinNames (sortStrings directFileNames)]
  else if cfg.formatLongList then
    directFileEntries.mapM printLongEntryInfo
  else
    .ok []

/-- The headerless part of one otherEntries iteration of printEntries: the
long-format total line, then the body listing the children
(case-insensitively sorted in both formats). -/
def dirSectionBody (cfg : Config) (e : EntryInfo) :
    Except GoPanic (List String) := do
  let totalLines ←
    if cfg.formatLongList then do
      let n ← blocksForSize e cfg.blockSize
      pure ["total " ++ toString n]
    else
      pure ([] : List String)
  let bodyLines ←
    if !cfg.formatLongList then
      let subFileNames := e.subEntries.map safeName
      if subFileNames.length > 0 then
        pure [joinNames (sortCI subFileNames)]
      else
        pure ([] : List String)
    else
      (sortEntriesCI e.subEntries).mapM printLongEntryInfo
  pure (totalLines ++ bodyLines)

/-- One otherEntries iteration of printEntries, without the leading blank
line: the optional name header first, then the headerless section body. -/
def dirSectionLines (cfg : Config) (withHeader : Bool) (e : EntryInfo) :
    Except GoPanic (List String) :=
  (dirSectionBody cfg e).map
    (fun ls => (if withHeader then [safeName e ++ ":"] else []) ++ ls)

/-- The otherEntries loop of printEntries: a blank line before every section
except the first, then the section lines. -/
def othersLoop (cfg : Config) (withHeader : Bool) :
    Bool → List EntryInfo → Except GoPanic (List String)
  | _, [] => .ok []
  | isFirst, e :: rest => do
    let sec ← dirSectionLines cfg withHeader e
    let more ← othersLoop cfg withHeader false rest
    pure ((if isFirst then [] else [""]) ++ sec ++ more)

/-- printEntries at its single call site (recurse = false; the source only
re-enters printEntries when its recurse flag is set, which no caller does,
so that branch is dead code).  Headers are printed when the entry list -
not the command line - has more than one element. -/
def printEntriesLines (cfg : Config) (entries : List EntryInfo) :
    Except GoPanic (List String) := do
  let parts ← classifyEntries entries
  let directLines ← directPartLines cfg parts.1 parts.2.1
  let sectionLines ←
    othersLoop cfg (decide (1 < entries.length)) true parts.2.2
  pure (directLines ++ sectionLines)

/-- formatError: fs.PathError values get the cannot-access rendering, other
errors print their message. -/
def formatError (err : GoErr) : String :=
  if err.isPathErr then
    "cannot access \x27" ++ err.path ++ "\x27: " ++ err.msg
  else
    err.msg

/-- The observable outcome of a run of the ls command. -/
structure MainResult where
  stdoutLines : List String
  stderrLines : List String
  exitCode : Nat
deriving Repr, DecidableEq

/-- The main function of cmd/ls: stat every path (collecting errors, keeping
an entry per success), run fetchEntryInfo with recurse = false, print the
collected errors, render the entries, flush, and exit 2 exactly when the
error slice is non-empty. -/
def lsMain (env : Env) (cfg : Config) (paths : List String) (fuel : Nat) :
    Except GoPanic MainResult := do
  let statPass := paths.foldl
    (fun (acc : List EntryInfo × List GoErr) p =>
      match env.stat p with
      | .ok fi => (acc.1 ++ [directRootEntry p fi], acc.2)
      | .error e => (acc.1, acc.2 ++ [e]))
    ([], [])
  let fetched ← fetchEntryInfo env statPass.1 false fuel
  let errs1 := statPass.2 ++ fetched.2
  let stderr1 := if errs1.length > 0 then errs1.map formatError else []
  let stdout ← printEntriesLines cfg fetched.1
  match env.flushErr with
  | some e =>
    pure
      { stdoutLines := stdout
        stderrLines := stderr1 ++ [formatError e]
        exitCode := 2 }
  | none =>
    pure
      { stdoutLines := stdout
        stderrLines := stderr1
        exitCode := if errs1.length > 0 then 2 else 0 }

/-- The environment of the whoami command: the user.Current() result (its
Username on success) and the effective uid os.Geteuid() reports. -/
structure WhoamiEnv where
  currentUser : Except GoErr String
  euid : Int

/-- The observable outcome of a run of the whoami command. -/
structure WhoamiResult where
  stdoutLines : List String
  stderrText : String
  exitCode : Nat
deriving Repr, DecidableEq

/-- The main function of cmd/whoami: print the username and exit 0 on
success; on failure print the cannot-find message with the effective uid to
stderr (Fprintf, no newline) and exit 1. -/
def whoamiMain (env : WhoamiEnv) : WhoamiResult :=
  match env.currentUser with
  | .error _ =>
    { stdoutLines := []
      stderrText := "cannot find name for user ID " ++ toString env.euid
      exitCode := 1 }
  | .ok username =>
    { stdoutLines := [username]
      stderrText := ""
      exitCode := 0 }

/-! Concrete fixtures used by the claim-specific evaluations. -/

/-- A regular file whose Sys() carries uid / gid 1000 and 8 blocks. -/
def fiFile : FileInfo :=
  { isDir := false
    size := 12
    modeStr := "-rw-r--r--"
    modTimeStr := "Jan  1 12:00"
    sys := some { nlink := 1, blocks := 8, uid := 1000, gid := 1000 } }

/-- A directory whose Sys() is not a syscall.Stat_t. -/
def fiDir : FileInfo :=
  { isDir := true
    size := 4096
    modeStr := "drwxr-xr-x"
    modTimeStr := "Jan  1 12:00"
    sys := none }

/-- A regular file without syscall stat data. -/
def fiPlain : FileInfo :=
  { isDir := false
    size := 3
    modeStr := "-rw-r--r--"
    modTimeStr := "Jan  1 12:00"
    sys := none }

/-- The error user.LookupId returns for an unknown uid. -/
def unknownUserErr : GoErr := ⟨false, "", "unknown userid 1000"⟩

/-- The error a failing dirEntry.Info() call returns. -/
def infoErr : GoErr := ⟨true, "c", "stale file handle"⟩

/-- An environment with paths f (file with uid 1000), d (directory holding
one plain file a) and nothing else; uid lookups fail, gid lookups
succeed, flushing works. -/
def envLs : Env :=
  { stat := fun p =>
      if p = "d" then .ok fiDir
      else if p = "f" then .ok fiFile
      else .error ⟨true, p, "no such file or directory"⟩
    readDir := fun p =>
      if p = "d" then ([⟨"a", .ok fiPlain⟩], none) else ([], none)
    lookupUser := fun _ => .error unknownUserErr
    lookupGroup := fun _ => .ok "grp"
    flushErr := none }

/-- An environment whose directory d has a single child c whose Info()
call fails. -/
def envInfoFail : Env :=
  { stat := fun _ => .ok fiDir
    readDir := fun p =>
      if p = "d" then ([⟨"c", .error infoErr⟩], none) else ([], none)
    lookupUser := fun _ => .error unknownUserErr
    lookupGroup := fun _ => .ok "grp"
    flushErr := none }

/-- An environment with a two-level tree: directory d holds directory c,
which holds the plain file g. -/
def envGrand : Env :=
  { stat := fun _ => .ok fiDir
    readDir := fun p =>
      if p = "d" then ([⟨"c", .ok fiDir⟩], none)
      else if p = "c" then ([⟨"g", .ok fiPlain⟩], none)
      else ([], none)
    lookupUser := fun _ => .error unknownUserErr
    lookupGroup := fun _ => .ok "grp"
    flushErr := none }

/-- The default configuration: block size 1024, short format. -/
def cfgShort : Config := ⟨1024, false⟩

/-- The entry the fetch pass produces for the root file f under envLs:
sys fields copied, uid / gid 1000, user nil after the failed lookup, group
resolved. -/
def eFout : EntryInfo :=
  EntryInfo.mk
    { path := "f"
      fileInfo := some fiFile
      directRequest := true
      numLinks := 1
      numBlocks := 8
      uID := 1000
      gID := 1000
      user := none
      group := some "grp" }
    []

/-- A child entry carrying 6 blocks. -/
def childBlocks6 : EntryInfo :=
  EntryInfo.mk
    { path := "c1"
      fileInfo := some fiPlain
      directRequest := false
      numLinks := 0
      numBlocks := 6
      uID := -1
      gID := -1
      user := none
      group := none }
    []

/-- A directory entry whose single child carries 6 blocks (an even count). -/
def eTot : EntryInfo :=
  EntryInfo.mk
    { path := "t"
      fileInfo := some fiDir
      directRequest := true
      numLinks := 0
      numBlocks := 0
      uID := -1
      gID := -1
      user := none
      group := none }
    [childBlocks6]

/-- The grandchild paths inside one fetched entry. -/
def grandchildPathsOf (e : EntryInfo) : List String :=
  (e.subEntries.map (fun c => c.subEntries.map (fun g => g.data.path))).flatten

/-- The grandchild paths of every entry of a fetch result. -/
def grandchildPaths (r : Except GoPanic (List EntryInfo × List GoErr)) :
    List String :=
  match r with
  | .error _ => []
  | .ok result => (result.1.map grandchildPathsOf).flatten

/-! Spec-side reformulation pieces used for the layout claim. -/

/-- One blank line before each of the given sections. -/
def blankJoinAll : List (List String) → List String
  | [] => []
  | s :: rest => ([""] ++ s) ++ blankJoinAll rest

/-- Sections separated by single blank lines, none before the first. -/
def blankJoinFirst : List (List String) → List String
  | [] => []
  | s :: rest => s ++ blankJoinAll rest

/-- The sections of the non-direct entries, one list of lines each. -/
def sectionsListed (cfg : Config) (withHeader : Bool) :
    List EntryInfo → Except GoPanic (List (List String))
  | [] => .ok []
  | e :: rest =>
    match dirSectionLines cfg withHeader e with
    | .error p => .error p
    | .ok s =>
      match sectionsListed cfg withHeader rest with
      | .error p => .error p
      | .ok more => .ok (s :: more)

/-! Predicates for the owner / group resolution claim. -/

/-- Entries as main and fetchEntryInfo construct them before the fetch pass:
no user or group pointer yet and no children. -/
def cleanForFetch (e : EntryInfo) : Prop :=
  e.data.user = none ∧ e.data.group = none ∧ e.subEntries = []

/-- Throughout an entry tree, the user field is either nil or the exact
Username that the environment resolves for the entry's uid, and likewise for
the group field. -/
inductive ResolvedNamesOK (env : Env) : EntryInfo → Prop where
  | intro (d : EntryData) (subs : List EntryInfo)
      (huser : d.user = none ∨
        ∃ n, env.lookupUser d.uID = .ok n ∧ d.user = some n)
      (hgroup : d.group = none ∨
        ∃ n, env.lookupGroup d.gID = .ok n ∧ d.group = some n)
      (hsubs : ∀ s, s ∈ subs → ResolvedNamesOK env s) :
      ResolvedNamesOK env (.mk d subs)

/-- A whoami environment whose user.Current() call succeeds. -/
def envWho : WhoamiEnv := ⟨.ok "alice", 1000⟩

/-- A whoami environment whose user.Current() call fails, with effective
uid 1234. -/
def envWhoFail : WhoamiEnv := ⟨.error unknownUserErr, 1234⟩

/-! Order properties of the modelled Go string comparison. -/

/-- The boolean character comparison decides the character order. -/
theorem charLtB_eq_true (a b : Char) : charLtB a b = true ↔ a < b := by
  simp [charLtB]

/-- Characters that compare less-than in neither direction are equal. -/
theorem char_eq_of_not_lt (a b : Char) (h1 : charLtB a b = false)
    (h2 : charLtB b a = false) : a = b := by
  simp [charLtB] at h1 h2
  exact le_antisymm h2 h1

/-- The lexicographic comparison is irreflexive. -/
theorem listCharLt_irrefl : ∀ as, listCharLt as as = false := by
  intro as
  induction as with
  | nil => rfl
  | cons a as ih =>
    have h : charLtB a a = false := by
      simp [charLtB]
    simp [listCharLt, h, ih]

/-- Lists that compare less-than in neither direction are equal. -/
theorem listCharLt_eq_of_not : ∀ as bs, listCharLt as bs = false →
    listCharLt bs as = false → as = bs := by
  intro as
  induction as with
  | nil =>
    intro bs h1 _
    cases bs with
    | nil => rfl
    | cons b bs => simp [listCharLt] at h1
  | cons a as ih =>
    intro bs h1 h2
    cases bs with
    | nil => simp [listCharLt] at h2
    | cons b bs =>
      simp only [listCharLt] at h1 h2
      by_cases hab : charLtB a b = true
      · simp [hab] at h1
      · rw [Bool.not_eq_true] at hab
        by_cases hba : charLtB b a = true
        · simp [hba] at h2
        · rw [Bool.not_eq_true] at hba
          simp [hab, hba] at h1 h2
          have heq := char_eq_of_not_lt a b hab hba
          rw [heq, ih bs h1 h2]

/-- The lexicographic comparison is transitive. -/
theorem listCharLt_trans : ∀ as bs cs, listCharLt as bs = true →
    listCharLt bs cs = true → listCharLt as cs = true := by
  intro as
  induction as with
  | nil =>
    intro bs cs h1 h2
    cases bs with
    | nil => simp [listCharLt] at h1
    | cons b bs =>
      cases cs with
      | nil => simp [listCharLt] at h2
      | cons c cs => rfl
  | cons a as ih =>
    intro bs cs h1 h2
    cases bs with
    | nil => simp [listCharLt] at h1
    | cons b bs =>
      cases cs with
      | nil => simp [listCharLt] at h2
      | cons c cs =>
        simp only [listCharLt] at h1 h2 ⊢
        by_cases hab : charLtB a b = true
        · by_cases hbc : charLtB b c = true
          · have : a < c := lt_trans ((charLtB_eq_true a b).mp hab)
              ((charLtB_eq_true b c).mp hbc)
            simp [(charLtB_eq_true a c).mpr this]
          · rw [Bool.not_eq_true] at hbc
            by_cases hcb : charLtB c b = true
            · simp [hbc, hcb] at h2
            · rw [Bool.not_eq_true] at hcb
              have heq := char_eq_of_not_lt b c hbc hcb
              subst heq
              simp [hab]
        · rw [Bool.not_eq_true] at hab
          by_cases hba : charLtB b a = true
          · simp [hab, hba] at h1
          · rw [Bool.not_eq_true] at hba
            have heq := char_eq_of_not_lt a b hab hba
            subst heq
            simp [hab] at h1 ⊢
            by_cases hbc : charLtB a c = true
            · simp [hbc]
            · rw [Bool.not_eq_true] at hbc
              simp [hbc] at h2 ⊢
              by_cases hcb : charLtB c a = true
              · simp [hcb] at h2
              · rw [Bool.not_eq_true] at hcb
                simp [hcb] at h2 ⊢
                exact ih bs cs h1 h2

/-- Totality of the non-strict order induced by the comparison. -/
theorem listCharLe_total : ∀ as bs,
    listCharLt bs as = false ∨ listCharLt as bs = false := by
  intro as bs
  by_cases h : listCharLt bs as = true
  · right
    by_cases h2 : listCharLt as bs = true
    · have := listCharLt_trans as bs as h2 h
      rw [listCharLt_irrefl as] at this
      exact absurd this (by simp)
    · rwa [Bool.not_eq_true] at h2
  · left
    rwa [Bool.not_eq_true] at h

/-- Transitivity of the non-strict order induced by the comparison. -/
theorem listCharLe_trans : ∀ as bs cs, listCharLt bs as = false →
    listCharLt cs bs = false → listCharLt cs as = false := by
  intro as bs cs h1 h2
  by_cases h : listCharLt cs as = true
  · by_cases hcb : listCharLt cs bs = true
    · rw [hcb] at h2
      exact absurd h2 (by simp)
    · rw [Bool.not_eq_true] at hcb
      by_cases hbc : listCharLt bs cs = true
      · have := listCharLt_trans bs cs as hbc h
        rw [h1] at this
        exact absurd this (by simp)
      · rw [Bool.not_eq_true] at hbc
        have heq := listCharLt_eq_of_not bs cs hbc hcb
        subst heq
        rw [h1] at h
        exact absurd h (by simp)
  · rwa [Bool.not_eq_true] at h

/-! Structural lemmas about the embedded functions. -/

/-- The recurse parameter is threaded through fetchEntryInfo but never
consulted: the walk is identical for any two flag values. -/
theorem fetchLoop_ignores_recurse (env : Env) (r1 r2 : Bool) :
    ∀ fuel entries, fetchLoop env r1 fuel entries = fetchLoop env r2 fuel entries := by
  intro fuel
  induction fuel with
  | zero =>
    intro entries
    cases entries <;> rfl
  | succ f ih =>
    intro entries
    cases entries with
    | nil => rfl
    | cons e rest =>
      simp only [fetchLoop]
      cases e.data.fileInfo with
      | none => rfl
      | some fi => simp only [ih]

/-- The imperative otherEntries loop produces exactly the per-entry sections
joined with one blank line between consecutive sections (a blank line before
every section instead when the loop does not start at index 0). -/
theorem othersLoop_eq_sections (cfg : Config) (w : Bool) :
    ∀ xs isFirst, othersLoop cfg w isFirst xs =
      match sectionsListed cfg w xs with
      | .error p => .error p
      | .ok secs =>
        .ok (if isFirst then blankJoinFirst secs else blankJoinAll secs) := by
  intro xs
  induction xs with
  | nil =>
    intro isFirst
    cases isFirst <;> rfl
  | cons e rest ih =>
    intro isFirst
    simp only [othersLoop, sectionsListed, bind, Except.bind]
    cases hsec : dirSectionLines cfg w e with
    | error p => rfl
    | ok s =>
      rw [ih false]
      cases hrest : sectionsListed cfg w rest with
      | error p => rfl
      | ok secs =>
        cases isFirst <;>
          simp [blankJoinFirst, blankJoinAll, pure, Except.pure, List.append_assoc]

/-- Copying the syscall stat fields leaves the user pointer unchanged. -/
theorem applySysStat_user (d : EntryData) (fi : FileInfo) :
    (applySysStat d fi).user = d.user := by
  unfold applySysStat
  cases fi.sys <;> rfl

/-- Copying the syscall stat fields leaves the group pointer unchanged. -/
theorem applySysStat_group (d : EntryData) (fi : FileInfo) :
    (applySysStat d fi).group = d.group := by
  unfold applySysStat
  cases fi.sys <;> rfl

/-- The id lookups change neither uID nor gID. -/
theorem applyIdLookups_ids (env : Env) (d : EntryData) :
    (applyIdLookups env d).1.uID = d.uID ∧ (applyIdLookups env d).1.gID = d.gID :=
  ⟨rfl, rfl⟩

/-- After the lookup block, the user pointer is nil or exactly the name the
environment resolves for the uid, and likewise for the group pointer. -/
theorem applyIdLookups_resolved (env : Env) (d : EntryData)
    (hu : d.user = none) (hg : d.group = none) :
    ((applyIdLookups env d).1.user = none ∨
      ∃ n, env.lookupUser d.uID = .ok n ∧ (applyIdLookups env d).1.user = some n) ∧
    ((applyIdLookups env d).1.group = none ∨
      ∃ n, env.lookupGroup d.gID = .ok n ∧ (applyIdLookups env d).1.group = some n) := by
  unfold applyIdLookups
  constructor
  · by_cases h : d.uID = -1
    · simp [h, hu]
    · simp only [h, ne_eq, not_false_eq_true, if_true, ite_true]
      cases hl : env.lookupUser d.uID with
      | ok u => exact Or.inr ⟨u, rfl, by simp [hl]⟩
      | error er => simp [hl]
  · by_cases h : d.gID = -1
    · simp [h, hg]
    · simp only [h, ne_eq, not_false_eq_true, if_true, ite_true]
      cases hl : env.lookupGroup d.gID with
      | ok g => exact Or.inr ⟨g, rfl, by simp [hl]⟩
      | error er => simp [hl]

/-- Every child entry built from a directory read is in the pre-fetch state:
no user or group pointer and no children. -/
theorem initChildren_clean : ∀ ds : List DirEntry,
    ∀ e, e ∈ (initChildren ds).1 → cleanForFetch e := by
  intro ds
  induction ds with
  | nil =>
    intro e he
    cases he
  | cons d rest ih =>
    intro e he
    cases hinfo : d.info with
    | ok fi =>
      simp only [initChildren, hinfo] at he
      cases he with
      | head => exact ⟨rfl, rfl, rfl⟩
      | tail _ hmem => exact ih e hmem
    | error er =>
      simp only [initChildren, hinfo] at he
      cases he with
      | head => exact ⟨rfl, rfl, rfl⟩
      | tail _ hmem => exact ih e hmem

/-- Every entry coming out of the fetch walk (at every depth) has its user
and group pointers either nil or set to the exactly resolved names. -/
theorem fetchLoop_resolved (env : Env) (recurse : Bool) :
    ∀ fuel entries out, (∀ e, e ∈ entries → cleanForFetch e) →
      fetchLoop env recurse fuel entries = .ok out →
      ∀ e, e ∈ out.1 → ResolvedNamesOK env e := by
  intro fuel
  induction fuel with
  | zero =>
    intro entries out hclean hfetch e he
    cases entries with
    | nil =>
      simp only [fetchLoop] at hfetch
      cases hfetch
      cases he
    | cons e0 rest =>
      simp only [fetchLoop] at hfetch
      cases hfetch
  | succ f ih =>
    intro entries out hclean hfetch e he
    cases entries with
    | nil =>
      simp only [fetchLoop] at hfetch
      cases hfetch
      cases he
    | cons e0 rest =>
      obtain ⟨hu0, hg0, hs0⟩ := hclean e0 (List.Mem.head _)
      simp only [fetchLoop] at hfetch
      split at hfetch
      · cases hfetch
      · rename_i fi hfi
        have hresolved := applyIdLookups_resolved env (applySysStat e0.data fi)
          (by rw [applySysStat_user, hu0]) (by rw [applySysStat_group, hg0])
        rw [← (applyIdLookups_ids env (applySysStat e0.data fi)).1] at hresolved
        rw [← (applyIdLookups_ids env (applySysStat e0.data fi)).2] at hresolved
        split at hfetch
        · split at hfetch
          · cases hfetch
          · rename_i subResult hsub
            split at hfetch
            · cases hfetch
            · rename_i restResult hrest
              cases hfetch
              cases he with
              | head =>
                refine ResolvedNamesOK.intro _ _ hresolved.1 hresolved.2 ?_
                intro s hs
                exact ih _ subResult (initChildren_clean _) hsub s hs
              | tail _ hmem =>
                exact ih rest restResult
                  (fun x hx => hclean x (List.Mem.tail _ hx)) hrest e hmem
        · split at hfetch
          · cases hfetch
          · rename_i restResult hrest
            cases hfetch
            cases he with
            | head =>
              rw [hs0]
              refine ResolvedNamesOK.intro _ _ hresolved.1 hresolved.2 ?_
              intro s hs
              cases hs
            | tail _ hmem =>
              exact ih rest restResult
                (fun x hx => hclean x (List.Mem.tail _ hx)) hrest e hmem

/-! Claim theorems. -/

/-- Claim C1 (code defect): fetchEntryInfo is specified to return every
failure met during the walk, but its final statement returns nil: whatever
the walk collects, the caller receives an empty error list.  The concrete
run exhibits a uid-lookup failure that the walk collects (first conjunct)
and fetchEntryInfo then drops (second conjunct). -/
theorem fetchEntryInfo_returns_nil_errors :
    (∀ (env : Env) (entries : List EntryInfo) (recurse : Bool) (fuel : Nat)
      out, fetchEntryInfo env entries recurse fuel = .ok out → out.2 = []) ∧
    fetchLoop envLs false 2 [directRootEntry "f" fiFile] =
      .ok ([eFout], [unknownUserErr]) ∧
    fetchEntryInfo envLs [directRootEntry "f" fiFile] false 2 =
      .ok ([eFout], []) := by
  refine ⟨?_, rfl, rfl⟩
  intro env entries recurse fuel out h
  unfold fetchEntryInfo at h
  cases hl : fetchLoop env recurse fuel entries with
  | error p => rw [hl] at h; cases h
  | ok result => rw [hl] at h; cases h; rfl

/-- Witness for C1: the general conjunct applied to the concrete run. -/
theorem fetchEntryInfo_returns_nil_errors_witness :
    (([eFout], ([] : List GoErr)).2 = []) :=
  fetchEntryInfo_returns_nil_errors.1 envLs [directRootEntry "f" fiFile]
    false 2 ([eFout], []) rfl

/-- Claim C2 (code defect): a run in which the only failure is a uid lookup
exits 0, because fetchEntryInfo drops the collected errors; the claimed
exit-2-iff-any-error does not hold. -/
theorem lsMain_exit_zero_despite_lookup_error :
    lsMain envLs cfgShort ["f"] 2 = .ok ⟨["f"], [], 0⟩ ∧
    envLs.lookupUser 1000 = .error unknownUserErr :=
  ⟨rfl, rfl⟩

/-- Claim C3 (code defect): a child whose Info() call fails is still
constructed and retained with a nil fileInfo (first conjunct), and the
recursive fetch then dereferences it, panicking instead of dropping it
(second conjunct). -/
theorem fetch_keeps_nil_info_child_and_panics :
    initChildren [⟨"c", .error infoErr⟩] =
      ([newEntryInfo "c" none], [infoErr]) ∧
    fetchEntryInfo envInfoFail [directRootEntry "d" fiDir] false 3 =
      .error .nilDeref :=
  ⟨rfl, rfl⟩

/-- Claim C4: blocksForSize divides by blockSize / 512 with no guard, so for
any entry (with a live fileInfo) evaluation is division-by-zero-free exactly
when the configured block size is at least 512, and divides by zero for
every smaller block size. -/
theorem blocksForSize_safe_iff_min_512 :
    ∀ (e : EntryInfo) (fi : FileInfo) (blockSize : Nat),
      e.data.fileInfo = some fi →
      (blockSize < 512 → blocksForSize e blockSize = .error .divideByZero) ∧
      (512 ≤ blockSize → ∃ n, blocksForSize e blockSize = .ok n) := by
  intro e fi blockSize hfi
  constructor
  · intro hlt
    have hz : blockSize / 512 = 0 := Nat.div_eq_of_lt hlt
    simp only [blocksForSize, entryIsDir, hfi, hz]
    cases fi.isDir <;> simp
  · intro hge
    have hz : ¬ blockSize / 512 = 0 := by
      have := Nat.div_pos hge (by norm_num)
      omega
    simp only [blocksForSize, entryIsDir, hfi]
    cases fi.isDir <;> simp [hz]

/-- Witness for C4: block size 0 (which the uint flag accepts) divides by
zero on a concrete directory entry. -/
theorem blocksForSize_safe_iff_min_512_witness :
    blocksForSize eTot 0 = .error .divideByZero :=
  (blocksForSize_safe_iff_min_512 eTot fiDir 0 rfl).1 (by norm_num)

/-- Claim C5 counterexample: with the accepted block size 768 and an even
child block count of 6, doubling the block size does not halve the total:
total(1536) = 2 while total(768) / 2 = 3. -/
theorem blocksForSize_doubling_fails_at_768 :
    blocksForSize eTot 768 = .ok 6 ∧
    blocksForSize eTot (768 * 2) = .ok 2 ∧
    (2 : Nat) ≠ 6 / 2 :=
  ⟨rfl, rfl, by decide⟩

/-- Claim C5 as amended: for block sizes that are positive multiples of 512
the doubling identity does hold, for every entry and even without any
evenness assumption on the child block counts. -/
theorem blocksForSize_halves_on_doubling :
    ∀ (e : EntryInfo) (k n : Nat), 0 < k →
      blocksForSize e (512 * k) = .ok n →
      blocksForSize e (512 * k * 2) = .ok (n / 2) := by
  intro e k n hk h
  have hk2 : ¬ k = 0 := by omega
  have hk2m : ¬ k * 2 = 0 := by omega
  have hf1 : 512 * k / 512 = k := Nat.mul_div_cancel_left k (by norm_num)
  have hf2 : 512 * k * 2 / 512 = k * 2 := by
    rw [Nat.mul_assoc]
    exact Nat.mul_div_cancel_left (k * 2) (by norm_num)
  simp only [blocksForSize, hf1] at h
  simp only [blocksForSize, hf2]
  split at h
  · cases h
  · rw [if_neg hk2] at h
    cases h
    rw [if_neg hk2m]
    exact congrArg Except.ok (Nat.div_div_eq_div_mul _ _ _).symm
  · rw [if_neg hk2] at h
    cases h
    rw [if_neg hk2m]
    exact congrArg Except.ok (Nat.div_div_eq_div_mul _ _ _).symm

/-- Witness for the amended C5: block size 1024 = 512 * 2 on the concrete
directory entry, total 3, halved to 1 when the block size doubles. -/
theorem blocksForSize_halves_on_doubling_witness :
    blocksForSize eTot (512 * 2 * 2) = .ok (3 / 2) :=
  blocksForSize_halves_on_doubling eTot 2 3 (by norm_num) rfl

/-- Claim C6 counterexample: with the recursion flag false, fetchEntryInfo
still reads and stats the contents of child directories: the grandchild g is
fetched. -/
theorem fetchEntryInfo_fetches_grandchildren_without_flag :
    grandchildPaths
      (fetchEntryInfo envGrand [directRootEntry "d" fiDir] false 9) =
      ["g"] := rfl

/-- Claim C6 as amended: fetchEntryInfo threads its recursion flag through
but never consults it; the walk is identical for any two flag values, so it
always descends through every directory level it can reach. -/
theorem fetchEntryInfo_ignores_recurse_flag :
    ∀ (env : Env) (entries : List EntryInfo) (fuel : Nat) (r1 r2 : Bool),
      fetchEntryInfo env entries r1 fuel = fetchEntryInfo env entries r2 fuel := by
  intro env entries fuel r1 r2
  unfold fetchEntryInfo
  rw [fetchLoop_ignores_recurse env r1 r2 fuel entries]

/-- Claim C7 counterexample: two directly requested plain files named Banana
and apple are rendered in the order Banana, apple - sort.Strings is
case-sensitive, so the claimed apple, Banana order does not appear. -/
theorem direct_files_sorted_case_sensitively :
    printEntriesLines cfgShort
      [directRootEntry "Banana" fiPlain, directRootEntry "apple" fiPlain] =
      .ok ["Banana\t\t\tapple"] ∧
    ("Banana\t\t\tapple" : String) ≠ "apple\t\t\tBanana" :=
  ⟨rfl, by decide⟩

/-- Claim C7 as amended: the per-directory children lists are sorted
case-insensitively in both formats, while the directly requested file names
are sorted by the case-sensitive byte order. -/
theorem printEntries_sorting_orders :
    (∀ xs, (sortCI xs).Sorted ciLeP) ∧
    (∀ es, (sortEntriesCI es).Sorted ciEntryLeP) ∧
    (∀ xs, (sortStrings xs).Sorted goLeP) := by
  refine ⟨?_, ?_, ?_⟩
  · haveI : IsTotal String ciLeP :=
      ⟨fun a b => listCharLe_total (lowerData a) (lowerData b)⟩
    haveI : IsTrans String ciLeP :=
      ⟨fun a b c h1 h2 =>
        listCharLe_trans (lowerData a) (lowerData b) (lowerData c) h1 h2⟩
    exact fun xs => List.sorted_insertionSort ciLeP xs
  · haveI : IsTotal EntryInfo ciEntryLeP :=
      ⟨fun a b =>
        listCharLe_total (lowerData a.data.path) (lowerData b.data.path)⟩
    haveI : IsTrans EntryInfo ciEntryLeP :=
      ⟨fun a b c h1 h2 =>
        listCharLe_trans (lowerData a.data.path) (lowerData b.data.path)
          (lowerData c.data.path) h1 h2⟩
    exact fun es => List.sorted_insertionSort ciEntryLeP es
  · haveI : IsTotal String goLeP :=
      ⟨fun a b => listCharLe_total a.data b.data⟩
    haveI : IsTrans String goLeP :=
      ⟨fun a b c h1 h2 => listCharLe_trans a.data b.data c.data h1 h2⟩
    exact fun xs => List.sorted_insertionSort goLeP xs

/-- Claim C8 counterexample: with the two command-line paths d and x, where
x fails to stat, the surviving single entry gets no header at all; and with
the two surviving roots f (a file) and d (a directory), no blank line
separates the direct-file line from the directory section. -/
theorem headers_depend_on_surviving_entries :
    lsMain envLs cfgShort ["d", "x"] 3 =
      .ok ⟨["a"],
        ["cannot access \x27x\x27: no such file or directory"], 2⟩ ∧
    lsMain envLs cfgShort ["f", "d"] 3 =
      .ok ⟨["f", "d:", "a"], [], 0⟩ :=
  ⟨rfl, rfl⟩

/-- Claim C8 as amended: the output is the direct-file part followed by the
per-entry sections joined with exactly one blank line between consecutive
sections (none before the first); each section carries a name header exactly
when the surviving entry list - not the command line - has more than one
element. -/
theorem printEntries_layout :
    ∀ (cfg : Config) (entries : List EntryInfo) parts,
      classifyEntries entries = .ok parts →
      (printEntriesLines cfg entries =
        match directPartLines cfg parts.1 parts.2.1 with
        | .error p => .error p
        | .ok directLines =>
          match sectionsListed cfg (decide (1 < entries.length)) parts.2.2 with
          | .error p => .error p
          | .ok secs => .ok (directLines ++ blankJoinFirst secs)) ∧
      (∀ e, dirSectionLines cfg true e =
        (dirSectionLines cfg false e).map
          (fun ls => (safeName e ++ ":") :: ls)) := by
  intro cfg entries parts hclass
  constructor
  · simp only [printEntriesLines, hclass, bind, Except.bind]
    cases hdp : directPartLines cfg parts.1 parts.2.1 with
    | error p => rfl
    | ok directLines =>
      rw [othersLoop_eq_sections]
      cases hsec : sectionsListed cfg (decide (1 < entries.length)) parts.2.2 with
      | error p => rfl
      | ok secs => simp [pure, Except.pure]
  · intro e
    cases hb : dirSectionBody cfg e with
    | error p => simp [dirSectionLines, hb, Except.map]
    | ok ls => simp [dirSectionLines, hb, Except.map]

/-- Witness for the amended C8: the layout equality evaluated on a concrete
single surviving file entry. -/
theorem printEntries_layout_witness :
    printEntriesLines cfgShort [directRootEntry "f" fiPlain] =
      match directPartLines cfgShort [directRootEntry "f" fiPlain] ["f"] with
      | .error p => .error p
      | .ok directLines =>
        match sectionsListed cfgShort
          (decide (1 < [directRootEntry "f" fiPlain].length)) [] with
        | .error p => .error p
        | .ok secs => .ok (directLines ++ blankJoinFirst secs) :=
  (printEntries_layout cfgShort [directRootEntry "f" fiPlain]
    ([directRootEntry "f" fiPlain], ["f"], []) rfl).1

/-- Claim C9: after the fetch pass every entry at every depth carries a user
pointer that is nil or the exactly resolved account name (same for groups);
the rendered long-format owner and group columns are that account name when
resolved and the literal Unknown otherwise, never empty and never the raw
numeric id. -/
theorem long_format_owner_group_resolved :
    ∀ (env : Env) (recurse : Bool) (fuel : Nat) (entries : List EntryInfo)
      out,
      (∀ e, e ∈ entries → cleanForFetch e) →
      fetchLoop env recurse fuel entries = .ok out →
      (∀ e, e ∈ out.1 → ResolvedNamesOK env e) ∧
      (∀ e, ResolvedNamesOK env e →
        (ownerName e = "Unknown" ∨
          ∃ n, env.lookupUser e.data.uID = .ok n ∧ ownerName e = n) ∧
        (groupName e = "Unknown" ∨
          ∃ n, env.lookupGroup e.data.gID = .ok n ∧ groupName e = n)) ∧
      (∀ (e : EntryInfo) (fi : FileInfo), e.data.fileInfo = some fi →
        printLongEntryInfo e =
          .ok (fi.modeStr ++ "\t" ++ toString e.data.numLinks ++ "\t" ++
            ownerName e ++ "\t" ++ groupName e ++ "\t" ++ toString fi.size ++
            "\t" ++ fi.modTimeStr ++ "\t" ++ safeName e)) := by
  intro env recurse fuel entries out hclean hfetch
  refine ⟨fetchLoop_resolved env recurse fuel entries out hclean hfetch, ?_, ?_⟩
  · intro e hres
    cases hres with
    | intro d subs huser hgroup hsubs =>
      constructor
      · cases huser with
        | inl h => exact Or.inl (by simp [ownerName, EntryInfo.data, h])
        | inr h =>
          obtain ⟨n, hn, hu⟩ := h
          exact Or.inr ⟨n, hn, by simp [ownerName, EntryInfo.data, hu]⟩
      · cases hgroup with
        | inl h => exact Or.inl (by simp [groupName, EntryInfo.data, h])
        | inr h =>
          obtain ⟨n, hn, hg⟩ := h
          exact Or.inr ⟨n, hn, by simp [groupName, EntryInfo.data, hg]⟩
  · intro e fi hfi
    simp [printLongEntryInfo, hfi]

/-- Witness for C9: the resolution invariant on the concrete fetched entry
whose uid lookup failed and whose gid lookup succeeded. -/
theorem long_format_owner_group_resolved_witness :
    ResolvedNamesOK envLs eFout :=
  (long_format_owner_group_resolved envLs false 2 [directRootEntry "f" fiFile]
    ([eFout], [unknownUserErr])
    (fun e he => by
      rw [List.mem_singleton] at he
      subst he
      exact ⟨rfl, rfl, rfl⟩)
    rfl).1 eFout (List.Mem.head _)

/-- Claim C10: whoami prints the username and exits 0 when the current-user
lookup succeeds, and prints the cannot-find message with the numeric
effective uid to the error stream and exits 1 when it fails. -/
theorem whoamiMain_contract :
    ∀ env : WhoamiEnv,
      (∀ u, env.currentUser = .ok u → whoamiMain env = ⟨[u], "", 0⟩) ∧
      (∀ er, env.currentUser = .error er →
        whoamiMain env =
          ⟨[], "cannot find name for user ID " ++ toString env.euid, 1⟩) := by
  intro env
  constructor
  · intro u hu
    simp [whoamiMain, hu]
  · intro er her
    simp [whoamiMain, her]

/-- Witness for C10: both branches of the contract on concrete
environments. -/
theorem whoamiMain_contract_witness :
    whoamiMain envWho = ⟨["alice"], "", 0⟩ ∧
    whoamiMain envWhoFail =
      ⟨[], "cannot find name for user ID " ++ toString (1234 : Int), 1⟩ :=
  ⟨(whoamiMain_contract envWho).1 "alice" rfl,
    (whoamiMain_contract envWhoFail).2 unknownUserErr rfl⟩
